import Mathlib

/-!
Verification of the okta-dev-account-migration-tool core: the backup/restore
orchestrators, the resource catalog, and the ID-mapping store, shallowly
embedded from the Go sources (backup.go, restore.go, backupconfig.go).

Strings are modelled at the character-list level; Go string helpers
(strings.HasSuffix, strings.TrimSuffix, strings.ToLower) are embedded as
executable Lean functions with the same semantics on the ASCII inputs the
tool manipulates. Filesystem reads are modelled by a finite directory map,
and every exec.Command invocation is recorded as its argument list, so a
run of an orchestrator denotes the sequence of CLI calls it issues.
-/

/-- Membership-style suffix test, modelling Go strings.HasSuffix
(and the String.endsWith call sites in restore.go). -/
def strEndsWith (s suffix : String) : Bool := suffix.data.isSuffixOf s.data

/-- Models Go strings.TrimSuffix: drop the suffix when present, else return
the string unchanged. -/
def trimSuffix (s suffix : String) : String :=
  if strEndsWith s suffix then ⟨s.data.take (s.data.length - suffix.data.length)⟩ else s

/-- Models Go strings.ToLower (ASCII inputs). -/
def strToLower (s : String) : String := ⟨s.data.map Char.toLower⟩

/-- Association-list lookup, modelling Go map indexing read. -/
def alookup {α : Type} (l : List (String × α)) (k : String) : Option α :=
  match l with
  | [] => none
  | (k₂, v) :: rest => if k₂ = k then some v else alookup rest k

/-- Association-list update, modelling Go map assignment (insert or overwrite). -/
def setEntry {α : Type} (l : List (String × α)) (k : String) (v : α) : List (String × α) :=
  match l with
  | [] => [(k, v)]
  | (k₂, v₂) :: rest => if k₂ = k then (k, v) :: rest else (k₂, v₂) :: setEntry rest k v

/-- One entry of an os.ReadDir listing. The content field abstracts
os.ReadFile followed by json.Unmarshal into a string-valued object:
none stands for a read or parse failure (or a directory). -/
structure DirEntry where
  name : String
  isDir : Bool
  content : Option (List (String × String)) := none
deriving DecidableEq, Repr

/-- The filesystem as a finite map from directory path to its entries;
a missing key models os.IsNotExist on Stat (or a ReadDir failure). -/
structure FSys where
  dirs : List (String × List DirEntry)
deriving DecidableEq, Repr

/-- Models os.Stat + os.ReadDir on a directory path. -/
def FSys.readDir (fs : FSys) (path : String) : Option (List DirEntry) := alookup fs.dirs path

/-- Config, restricted to the only field the call builders consult
(main.go PrepareOktaCliArgs). -/
structure Config where
  ConfigFilePath : String := ""
deriving DecidableEq, Repr

/-- Models main.go PrepareOktaCliArgs: prepend the config-file flag when set. -/
def PrepareOktaCliArgs (cfg : Config) (args : List String) : List String :=
  if cfg.ConfigFilePath ≠ "" then "--config" :: cfg.ConfigFilePath :: args else args

/-- Models backupconfig.go BackupConfigResource. -/
structure BackupConfigResource where
  Name : String
  ListCommand : String := ""
  GetCommand : String := ""
  RequiresIDs : Bool := false
  SourceIDDir : String := ""
  IsSingleton : Bool := false
deriving DecidableEq, Repr

/-- Models backupconfig.go BackupConfig. -/
structure BackupConfig where
  FirstPassResources : List BackupConfigResource
  SecondPassResources : List BackupConfigResource
  SingletonResources : List BackupConfigResource
deriving DecidableEq, Repr

/-- The hardcoded catalog of backupconfig.go GetBackupConfig, transcribed
entry by entry (commented-out Go entries are omitted, as the Go compiler does). -/
def GetBackupConfig : BackupConfig :=
  { FirstPassResources := [
      { Name := "user", ListCommand := "lists", GetCommand := "get" },
      { Name := "group", ListCommand := "lists", GetCommand := "get" },
      { Name := "userType", ListCommand := "lists", GetCommand := "get" },
      { Name := "application", ListCommand := "lists", GetCommand := "get" },
      { Name := "authorizationServer", ListCommand := "lists", GetCommand := "get" },
      { Name := "identityProvider", ListCommand := "lists", GetCommand := "get" },
      { Name := "networkZone", ListCommand := "lists", GetCommand := "get" },
      { Name := "trustedOrigin", ListCommand := "lists", GetCommand := "get" },
      { Name := "apiToken", ListCommand := "lists", GetCommand := "get" },
      { Name := "customDomain", ListCommand := "lists", GetCommand := "get" },
      { Name := "customization", ListCommand := "listBrands", GetCommand := "" },
      { Name := "eventHook", ListCommand := "lists", GetCommand := "get" },
      { Name := "inlineHook", ListCommand := "lists", GetCommand := "get" },
      { Name := "hookKey", ListCommand := "lists", GetCommand := "get" },
      { Name := "role", ListCommand := "lists", GetCommand := "get" },
      { Name := "feature", ListCommand := "lists", GetCommand := "get" },
      { Name := "emailDomain", ListCommand := "lists", GetCommand := "get" },
      { Name := "template", ListCommand := "listSmss", GetCommand := "getSms" }],
    SecondPassResources := [
      { Name := "group", ListCommand := "listUsers", RequiresIDs := true, SourceIDDir := "group" },
      { Name := "group", ListCommand := "listAssignedApplicationsFor", RequiresIDs := true, SourceIDDir := "group" },
      { Name := "user", ListCommand := "listAppLinks", RequiresIDs := true, SourceIDDir := "user" },
      { Name := "user", ListCommand := "listGroups", RequiresIDs := true, SourceIDDir := "user" },
      { Name := "user", ListCommand := "listGrants", RequiresIDs := true, SourceIDDir := "user" },
      { Name := "user", ListCommand := "listIdentityProviders", RequiresIDs := true, SourceIDDir := "user" },
      { Name := "userFactor", ListCommand := "listFactors", RequiresIDs := true, SourceIDDir := "user" },
      { Name := "roleAssignment", ListCommand := "listAssignedRolesForUser", RequiresIDs := true, SourceIDDir := "user" },
      { Name := "authorizationServerClaims", ListCommand := "listOAuth2Claims", RequiresIDs := true, SourceIDDir := "authorizationServer" },
      { Name := "authorizationServerScopes", ListCommand := "listOAuth2Scopes", RequiresIDs := true, SourceIDDir := "authorizationServer" },
      { Name := "authorizationServerPolicies", ListCommand := "list", RequiresIDs := true, SourceIDDir := "authorizationServer" },
      { Name := "authorizationServerClients", ListCommand := "listOAuth2ClientsForAuthorizationServer", RequiresIDs := true, SourceIDDir := "authorizationServer" },
      { Name := "policy", ListCommand := "listRules", RequiresIDs := true, SourceIDDir := "policy" },
      { Name := "authorizationServerRules", ListCommand := "listAuthorizationServerPolicyRules", RequiresIDs := true, SourceIDDir := "authorizationServerPolicy" },
      { Name := "identityProvider", ListCommand := "listKeys", RequiresIDs := true, SourceIDDir := "identityProvider" },
      { Name := "identityProvider", ListCommand := "listSigningKeys", RequiresIDs := true, SourceIDDir := "identityProvider" }],
    SingletonResources := [
      { Name := "orgSetting", GetCommand := "gets", IsSingleton := true },
      { Name := "orgSetting", GetCommand := "getOrgPreferences", IsSingleton := true },
      { Name := "orgSetting", GetCommand := "getOktaCommunicationSettings", IsSingleton := true },
      { Name := "orgSetting", GetCommand := "getOrgOktaSupportSettings", IsSingleton := true },
      { Name := "orgSetting", GetCommand := "getThirdPartyAdminSetting", IsSingleton := true },
      { Name := "orgSetting", GetCommand := "getWellknownOrgMetadata", IsSingleton := true },
      { Name := "attackProtection", GetCommand := "getUserLockoutSettings", IsSingleton := true },
      { Name := "attackProtection", GetCommand := "getAuthenticatorSettings", IsSingleton := true },
      { Name := "threatInsight", GetCommand := "getCurrentConfiguration", IsSingleton := true },
      { Name := "rateLimitSettings", GetCommand := "getPerClient", IsSingleton := true },
      { Name := "rateLimitSettings", GetCommand := "getWarningThreshold", IsSingleton := true },
      { Name := "rateLimitSettings", GetCommand := "getAdminNotifications", IsSingleton := true }] }

/-- Models backupconfig.go getParameterFlagForResource: the paramMap lookup
with the default fallback "id". -/
def getParameterFlagForResource (resourceName : String) : String :=
  match resourceName with
  | "group" => "groupId"
  | "user" => "userId"
  | "application" => "applicationId"
  | "authorizationServer" => "authServerId"
  | "authorizationServerPolicies" => "authServerId"
  | "authorizationServerRules" => "policyId"
  | "identityProvider" => "idpId"
  | "policy" => "policyId"
  | "userFactor" => "userId"
  | "roleAssignment" => "userId"
  | "applicationGroups" => "appId"
  | "applicationUsers" => "appId"
  | "applicationTokens" => "appId"
  | "applicationCredentials" => "appId"
  | "applicationFeatures" => "appId"
  | "applicationGrants" => "appId"
  | "authorizationServerClaims" => "authServerId"
  | "authorizationServerScopes" => "authServerId"
  | "authorizationServerClients" => "authServerId"
  | "groupOwner" => "groupId"
  | _ => "id"

/-- Names of the first-pass (independent) descriptors of the shipped catalog. -/
def firstPassNames : List String := GetBackupConfig.FirstPassResources.map (fun r => r.Name)

/-- Names of the second-pass (dependent) descriptors of the shipped catalog. -/
def secondPassNames : List String := GetBackupConfig.SecondPassResources.map (fun r => r.Name)

/-- Models backup.go getResourceIDsFromDirectory: identifiers recovered from
the .json filenames of a directory listing. -/
def getResourceIDsFromDirectory (entries : List DirEntry) : List String :=
  entries.foldl (fun ids e =>
    if !e.isDir && strEndsWith e.name ".json" then ids ++ [trimSuffix e.name ".json"] else ids) []

/-- Trace of the CLI calls issued by the first-pass loop of backup.go
PerformBackup, in issue order. -/
def firstPassBackupCalls (cfg : Config) (config : BackupConfig) (outputDir : String) : List (List String) :=
  config.FirstPassResources.foldl (fun acc r =>
    acc ++ [PrepareOktaCliArgs cfg [r.Name, r.ListCommand, "--batch-backup", "--backup-dir", outputDir]]) []

/-- Trace of the CLI calls issued by the singleton loop of backup.go
PerformBackup, in issue order. -/
def singletonBackupCalls (cfg : Config) (config : BackupConfig) (outputDir : String) : List (List String) :=
  config.SingletonResources.foldl (fun acc r =>
    acc ++ [PrepareOktaCliArgs cfg [r.Name, r.GetCommand, "--backup-dir", outputDir]]) []

/-- Trace of the CLI calls issued by backup.go backupSecondPassResources:
for each dependent descriptor, identifiers are discovered from the persisted
source-type listing directory and one list call is issued per identifier. -/
def backupSecondPassCalls (cfg : Config) (fs : FSys) (config : BackupConfig) (outputDir : String) : List (List String) :=
  config.SecondPassResources.foldl (fun acc r =>
    match fs.readDir (outputDir ++ "/" ++ r.SourceIDDir ++ "/lists") with
    | none => acc
    | some entries =>
      let ids := getResourceIDsFromDirectory entries
      if ids.isEmpty then acc
      else
        let paramFlag := getParameterFlagForResource r.Name
        ids.foldl (fun acc2 id =>
          acc2 ++ [PrepareOktaCliArgs cfg [r.Name, r.ListCommand, "--" ++ paramFlag, id, "--batch-backup", "--backup-dir", outputDir]]) acc) []

/-- Trace of all CLI calls issued by backup.go PerformBackup, in issue
order: the first-pass loop runs, then the singleton loop, then
backupSecondPassResources. -/
def performBackupCalls (cfg : Config) (fs : FSys) (outputDir : String) : List (List String) :=
  firstPassBackupCalls cfg GetBackupConfig outputDir ++
  singletonBackupCalls cfg GetBackupConfig outputDir ++
  backupSecondPassCalls cfg fs GetBackupConfig outputDir

/-- The JSON-like content of the ID-mapping file: resource type to
(old identifier to new identifier). -/
abbrev Mappings := List (String × List (String × String))

/-- Models restore.go IDMapping (Mappings plus FilePath). -/
structure IDMapping where
  mappings : Mappings
  filePath : String := ""
deriving DecidableEq, Repr

/-- Models restore.go NewIDMapping. -/
def NewIDMapping (restoreDir : String) : IDMapping :=
  { mappings := [], filePath := restoreDir ++ "/id_mapping.json" }

/-- The inner map held for a resource type, empty when the type is absent —
matching the make-then-assign shape of AddMapping. -/
def IDMapping.innerOf (m : IDMapping) (resourceType : String) : List (String × String) :=
  (alookup m.mappings resourceType).getD []

/-- Models the in-memory mutation performed by restore.go AddMapping:
create the inner map if absent, then insert or overwrite the entry. -/
def IDMapping.addMapping (m : IDMapping) (resourceType oldID newID : String) : IDMapping :=
  { m with mappings := setEntry m.mappings resourceType (setEntry (m.innerOf resourceType) oldID newID) }

/-- Models restore.go GetNewID; the (string, bool) pair is an Option. -/
def IDMapping.getNewID (m : IDMapping) (resourceType oldID : String) : Option String :=
  match alookup m.mappings resourceType with
  | none => none
  | some resourceMap => alookup resourceMap oldID

/-- Models restore.go Save: marshal the snapshot and write the file. The
persistence substrate is the oracle persist, which returns an error message
on failure and none on success. -/
def IDMapping.save (persist : Mappings → Option String) (m : IDMapping) : Option String :=
  persist m.mappings

/-- Models restore.go AddMapping as its caller observes it: the in-memory
update is applied, Save is invoked once on the full new snapshot (the second
component records the snapshots handed to Save), and the Save result is
discarded — AddMapping returns no error value. -/
def IDMapping.addMappingGo (persist : Mappings → Option String) (m : IDMapping)
    (resourceType oldID newID : String) : IDMapping × List Mappings :=
  let mNew := m.addMapping resourceType oldID newID
  let _ := mNew.save persist
  (mNew, [mNew.mappings])

/-- Disposition of PerformRestore immediately after its Load step. -/
inductive LoadDisposition where
  | proceedWith (m : IDMapping)
  | abort (msg : String)
deriving DecidableEq, Repr

/-- Models restore.go Load: a missing file yields a fresh empty mapping and
no error; existing content that fails to parse yields an error (the parse
oracle models json.Unmarshal). -/
def IDMapping.loadGo (parse : String → Option Mappings) (file : Option String) (m : IDMapping) :
    IDMapping × Option String :=
  match file with
  | none => ({ m with mappings := [] }, none)
  | some data =>
    match parse data with
    | some parsed => ({ m with mappings := parsed }, none)
    | none => (m, some "error parsing ID mapping file")

/-- Models the opening of restore.go PerformRestore: construct the store,
Load it, and when Load errors merely print a message — both branches proceed
into the restore passes; no branch aborts. -/
def performRestoreLoadGo (parse : String → Option Mappings) (inputDir : String)
    (file : Option String) : LoadDisposition :=
  let idMapping := NewIDMapping inputDir
  match IDMapping.loadGo parse file idMapping with
  | (m, none) => .proceedWith m
  | (m, some _) => .proceedWith m

/-- Warnings printed by the restore paths, structured by their context. -/
inductive RWarning where
  | unmappedSource (sourceType oldID : String)
  | readDirFailed (path : String)
  | noCommand (name listCommand : String)
  | parseFailed (path : String)
  | missingField (field path : String)
  | unmappedID (resourceType oldID : String)
  | runFailed (args : List String)
deriving DecidableEq, Repr

/-- The keys of the restore.go customRestorers map. -/
def customRestorerNames : List String := ["applicationGroups", "user", "roleAssignment"]

/-- Models restore.go isAssignmentResource. -/
def isAssignmentResource (resourceName listCommand : String) : Bool :=
  match resourceName with
  | "user" => listCommand == "listGroups"
  | "group" => listCommand == "listUsers" || listCommand == "listAssignedApplicationsFor"
  | _ => false

/-- Models restore.go buildAssignmentCommand: the argument list of the
resulting command, none when the Go function returns nil. -/
def buildAssignmentCommand (cfg : Config) (resourceName sourceIDParam sourceID filePath : String) :
    Option (List String) :=
  match resourceName with
  | "user" =>
    if sourceIDParam = "userId" then
      some (PrepareOktaCliArgs cfg ["group", "addUserToGroup", "--userId", sourceID,
        "--groupId", "TARGET_GROUP_ID", "--assignment-file", filePath])
    else none
  | "group" =>
    if sourceIDParam = "groupId" then
      some (PrepareOktaCliArgs cfg ["user", "addUserToGroup", "--groupId", sourceID,
        "--userId", "TARGET_USER_ID", "--assignment-file", filePath])
    else none
  | _ => none

/-- The command restore.go restoreSecondPassResources builds for one record
file: the assignment-specific form for assignment resources, otherwise the
generic create parameterized by the translated source identifier. -/
def secondPassCmdFor (cfg : Config) (name listCommand sourceIDParam newSourceID filePath : String) :
    Option (List String) :=
  if isAssignmentResource name listCommand then
    buildAssignmentCommand cfg name sourceIDParam newSourceID filePath
  else
    some (PrepareOktaCliArgs cfg [name, "create", "--" ++ sourceIDParam, newSourceID,
      "--restore-from", filePath])

/-- Calls issued for one source-identifier subdirectory by the generic
second pass of restore.go restoreSecondPassResources. -/
def restoreSecondPassSubdirCalls (cfg : Config) (fs : FSys) (m : IDMapping)
    (r : BackupConfigResource) (sourceIDParam resourceDir : String) (e : DirEntry) :
    List (List String) :=
  if e.isDir then
    match m.getNewID r.SourceIDDir e.name with
    | none => []
    | some newSourceID =>
      match fs.readDir (resourceDir ++ "/" ++ e.name) with
      | none => []
      | some files =>
        files.filterMap (fun f =>
          if !f.isDir && strEndsWith f.name ".json" then
            secondPassCmdFor cfg r.Name r.ListCommand sourceIDParam newSourceID
              (resourceDir ++ "/" ++ e.name ++ "/" ++ f.name)
          else none)
  else []

/-- Warnings emitted for one source-identifier subdirectory of the generic
second pass, through command construction (warnings about failed command
runs are outside the modelled trace). -/
def restoreSecondPassSubdirWarnings (cfg : Config) (fs : FSys) (m : IDMapping)
    (r : BackupConfigResource) (sourceIDParam resourceDir : String) (e : DirEntry) :
    List RWarning :=
  if e.isDir then
    match m.getNewID r.SourceIDDir e.name with
    | none => [.unmappedSource r.SourceIDDir e.name]
    | some newSourceID =>
      match fs.readDir (resourceDir ++ "/" ++ e.name) with
      | none => [.readDirFailed (resourceDir ++ "/" ++ e.name)]
      | some files =>
        files.filterMap (fun f =>
          if !f.isDir && strEndsWith f.name ".json" then
            match secondPassCmdFor cfg r.Name r.ListCommand sourceIDParam newSourceID
                (resourceDir ++ "/" ++ e.name ++ "/" ++ f.name) with
            | none => some (.noCommand r.Name r.ListCommand)
            | some _ => none
          else none)
  else []

/-- Calls issued for one dependent descriptor by restore.go
restoreSecondPassResources; descriptors whose Name has a custom restorer
are skipped. -/
def restoreSecondPassResourceCalls (cfg : Config) (fs : FSys) (m : IDMapping)
    (r : BackupConfigResource) : List (List String) :=
  if customRestorerNames.contains r.Name then []
  else
    let sourceIDParam := getParameterFlagForResource r.SourceIDDir
    let resourceDir := strToLower r.Name ++ "/" ++ r.ListCommand
    match fs.readDir resourceDir with
    | none => []
    | some subdirs =>
      subdirs.flatMap (restoreSecondPassSubdirCalls cfg fs m r sourceIDParam resourceDir)

/-- Warnings emitted for one dependent descriptor by restore.go
restoreSecondPassResources. -/
def restoreSecondPassResourceWarnings (cfg : Config) (fs : FSys) (m : IDMapping)
    (r : BackupConfigResource) : List RWarning :=
  if customRestorerNames.contains r.Name then []
  else
    let sourceIDParam := getParameterFlagForResource r.SourceIDDir
    let resourceDir := strToLower r.Name ++ "/" ++ r.ListCommand
    match fs.readDir resourceDir with
    | none => []
    | some subdirs =>
      subdirs.flatMap (restoreSecondPassSubdirWarnings cfg fs m r sourceIDParam resourceDir)

/-- Calls issued by restore.go restoreSecondPassResources over a catalog. -/
def restoreSecondPassCalls (cfg : Config) (fs : FSys) (m : IDMapping)
    (config : BackupConfig) : List (List String) :=
  config.SecondPassResources.flatMap (restoreSecondPassResourceCalls cfg fs m)

/-- Body of the file loop of restore.go restoreFirstPassResources: replay
the persisted record through create (the oracle abstracting restoreResource,
mapping resource type and file path to the new identifier of the backend's
response, none for any failure) and record the identifier translation on
success. -/
def firstPassStep (create : String → String → Option String) (rname resourceDir : String)
    (m : IDMapping) (file : DirEntry) : IDMapping :=
  if !file.isDir && strEndsWith file.name ".json" then
    match create rname (resourceDir ++ "/" ++ file.name) with
    | none => m
    | some newID => m.addMapping rname (trimSuffix file.name ".json") newID
  else m

/-- Mapping state after restore.go restoreFirstPassResources processes one
independent descriptor. -/
def restoreFirstPassResource (create : String → String → Option String) (fs : FSys)
    (m : IDMapping) (r : BackupConfigResource) : IDMapping :=
  if r.ListCommand == "" then m
  else
    let resourceDir := strToLower r.Name ++ "/lists"
    match fs.readDir resourceDir with
    | none => m
    | some files => files.foldl (firstPassStep create r.Name resourceDir) m

/-- Mapping state after restore.go restoreFirstPassResources. -/
def restoreFirstPassResources (create : String → String → Option String) (fs : FSys)
    (m : IDMapping) (config : BackupConfig) : IDMapping :=
  config.FirstPassResources.foldl (restoreFirstPassResource create fs) m

/-- Old-to-new pairs recorded by the first pass for one descriptor: one per
persisted .json file whose create succeeds, keyed by the identifier
recovered from the filename. -/
def firstPassPairs (create : String → String → Option String) (rname resourceDir : String)
    (files : List DirEntry) : List (String × String) :=
  files.filterMap (fun e =>
    if !e.isDir && strEndsWith e.name ".json" then
      (create rname (resourceDir ++ "/" ++ e.name)).map (fun n => (trimSuffix e.name ".json", n))
    else none)

/-- Number of persisted dependent records under one source-identifier
subdirectory. -/
def subdirJsonCount (fs : FSys) (resourceDir : String) (e : DirEntry) : Nat :=
  match fs.readDir (resourceDir ++ "/" ++ e.name) with
  | none => 0
  | some files => (files.filter (fun f => !f.isDir && strEndsWith f.name ".json")).length

/-- Catalog holding one independent and one dependent descriptor, for the
round-trip statement. -/
def pairCatalog (r₁ r₂ : BackupConfigResource) : BackupConfig :=
  { FirstPassResources := [r₁], SecondPassResources := [r₂], SingletonResources := [] }

def c1R1 : BackupConfigResource := { Name := "group", ListCommand := "lists", GetCommand := "get" }

def c1R2 : BackupConfigResource :=
  { Name := "userFactor", ListCommand := "listFactors", RequiresIDs := true, SourceIDDir := "group" }

def c1Files : List DirEntry := [⟨"g1.json", false, none⟩, ⟨"g2.json", false, none⟩]

def c1FS : FSys :=
  ⟨[("group/lists", c1Files),
    ("userfactor/listFactors", [⟨"g1", true, none⟩, ⟨"g2", true, none⟩]),
    ("userfactor/listFactors/g1", [⟨"f1.json", false, none⟩]),
    ("userfactor/listFactors/g2", [⟨"f2.json", false, none⟩, ⟨"f3.json", false, none⟩])]⟩

/-- Per-record behavior of restore.go ApplicationGroupsRestorer.Restore for
one assignment file: calls issued and warnings. The runs oracle gives each
issued command's success. -/
def agProcessFile (m : IDMapping) (runs : List String → Bool) (cfg : Config)
    (f : DirEntry) : List (List String) × List RWarning :=
  if !f.isDir && strEndsWith f.name ".json" then
    let filePath := "applicationgroups/listApplicationGroupAssignments/" ++ f.name
    match f.content with
    | none => ([], [.parseFailed filePath])
    | some assignment =>
      match alookup assignment "appId" with
      | none => ([], [.missingField "appId" filePath])
      | some oldAppID =>
        match alookup assignment "id" with
        | none => ([], [.missingField "id" filePath])
        | some oldGroupID =>
          match m.getNewID "application" oldAppID with
          | none => ([], [.unmappedID "application" oldAppID])
          | some newAppID =>
            match m.getNewID "group" oldGroupID with
            | none => ([], [.unmappedID "group" oldGroupID])
            | some newGroupID =>
              let primary := PrepareOktaCliArgs cfg ["applicationGroups", "assignGroupToApplication",
                "--appId", newAppID, "--groupId", newGroupID, "--restore-from", filePath]
              if runs primary then ([primary], [])
              else
                let fallback := PrepareOktaCliArgs cfg ["applicationGroups", "assignGroupToApplication",
                  "--appId", newAppID, "--groupId", newGroupID, "--data", "\x7b\x7d"]
                if runs fallback then ([primary, fallback], [])
                else ([primary, fallback], [.runFailed fallback])
  else ([], [])

/-- Calls issued by restore.go ApplicationGroupsRestorer.Restore. -/
def applicationGroupsRestorerCalls (cfg : Config) (fs : FSys) (m : IDMapping)
    (runs : List String → Bool) : List (List String) :=
  match fs.readDir "applicationgroups/listApplicationGroupAssignments" with
  | none => []
  | some files => files.flatMap (fun f => (agProcessFile m runs cfg f).1)

/-- Per-record behavior of restore.go UserGroupsRestorer.Restore for one
group file of one translated user: the single membership call is issued and
a run failure only logs a warning — there is no retry. -/
def ugProcessFile (m : IDMapping) (runs : List String → Bool) (cfg : Config)
    (newUserID userPath : String) (f : DirEntry) : List (List String) × List RWarning :=
  if !f.isDir && strEndsWith f.name ".json" then
    let filePath := userPath ++ "/" ++ f.name
    match f.content with
    | none => ([], [.parseFailed filePath])
    | some group =>
      match alookup group "id" with
      | none => ([], [.missingField "id" filePath])
      | some oldGroupID =>
        match m.getNewID "group" oldGroupID with
        | none => ([], [.unmappedID "group" oldGroupID])
        | some newGroupID =>
          let cmd := PrepareOktaCliArgs cfg ["group", "addUserToGroup",
            "--groupId", newGroupID, "--userId", newUserID]
          if runs cmd then ([cmd], []) else ([cmd], [.runFailed cmd])
  else ([], [])

/-- Calls issued by restore.go UserGroupsRestorer.Restore; it reads only the
user/listGroups tree. -/
def userGroupsRestorerCalls (cfg : Config) (fs : FSys) (m : IDMapping)
    (runs : List String → Bool) : List (List String) :=
  match fs.readDir "user/listGroups" with
  | none => []
  | some userDirs =>
    userDirs.flatMap (fun ud =>
      if ud.isDir then
        match m.getNewID "user" ud.name with
        | none => []
        | some newUserID =>
          match fs.readDir ("user/listGroups/" ++ ud.name) with
          | none => []
          | some groupFiles =>
            groupFiles.flatMap (fun f =>
              (ugProcessFile m runs cfg newUserID ("user/listGroups/" ++ ud.name) f).1)
      else [])

/-- Per-record behavior of restore.go RoleAssignmentRestorer.Restore for one
role file of one translated user: one assignment call, no retry. -/
def raProcessFile (_m : IDMapping) (runs : List String → Bool) (cfg : Config)
    (newUserID userPath : String) (f : DirEntry) : List (List String) × List RWarning :=
  if !f.isDir && strEndsWith f.name ".json" then
    let filePath := userPath ++ "/" ++ f.name
    match f.content with
    | none => ([], [.parseFailed filePath])
    | some role =>
      match alookup role "type" with
      | none => ([], [.missingField "type" filePath])
      | some roleType =>
        let cmd := PrepareOktaCliArgs cfg ["role", "assignRoleToUser",
          "--userId", newUserID, "--type", roleType]
        if runs cmd then ([cmd], []) else ([cmd], [.runFailed cmd])
  else ([], [])

theorem foldl_append_one {α β : Type} (g : α → β) (l : List α) (acc : List β) :
    l.foldl (fun a x => a ++ [g x]) acc = acc ++ l.map g := by
  induction l generalizing acc with
  | nil => simp
  | cons x xs ih => simp [ih]

theorem alookup_setEntry_self {α : Type} (l : List (String × α)) (k : String) (v : α) :
    alookup (setEntry l k v) k = some v := by
  induction l with
  | nil => simp [setEntry, alookup]
  | cons p rest ih =>
    obtain ⟨k₂, v₂⟩ := p
    by_cases h : k₂ = k <;> simp [setEntry, alookup, h, ih]

theorem alookup_setEntry_ne {α : Type} (l : List (String × α)) (k k₂ : String) (v : α)
    (h : k₂ ≠ k) : alookup (setEntry l k v) k₂ = alookup l k₂ := by
  induction l with
  | nil => simp [setEntry, alookup, Ne.symm h]
  | cons p rest ih =>
    obtain ⟨k₃, v₃⟩ := p
    by_cases h₃ : k₃ = k
    · subst h₃
      simp [setEntry, alookup, Ne.symm h]
    · by_cases h₄ : k₃ = k₂ <;> simp [setEntry, alookup, h₃, h₄, h, ih]

theorem getNewID_eq_alookup_innerOf (m : IDMapping) (t o : String) :
    m.getNewID t o = alookup (m.innerOf t) o := by
  unfold IDMapping.getNewID IDMapping.innerOf
  cases alookup m.mappings t <;> simp [alookup]

theorem innerOf_addMapping_self (m : IDMapping) (t o n : String) :
    (m.addMapping t o n).innerOf t = setEntry (m.innerOf t) o n := by
  unfold IDMapping.addMapping IDMapping.innerOf
  simp [alookup_setEntry_self]

theorem innerOf_addMapping_ne (m : IDMapping) (t t₂ o n : String) (h : t₂ ≠ t) :
    (m.addMapping t o n).innerOf t₂ = m.innerOf t₂ := by
  unfold IDMapping.addMapping IDMapping.innerOf
  simp [alookup_setEntry_ne _ _ _ _ h]

theorem getNewID_addMapping_self (m : IDMapping) (t o n : String) :
    (m.addMapping t o n).getNewID t o = some n := by
  rw [getNewID_eq_alookup_innerOf, innerOf_addMapping_self, alookup_setEntry_self]

theorem getNewID_addMapping_other (m : IDMapping) (t o n t₂ o₂ : String)
    (h : ¬(t₂ = t ∧ o₂ = o)) :
    (m.addMapping t o n).getNewID t₂ o₂ = m.getNewID t₂ o₂ := by
  rw [getNewID_eq_alookup_innerOf, getNewID_eq_alookup_innerOf]
  by_cases ht : t₂ = t
  · subst ht
    have ho : o₂ ≠ o := fun hh => h ⟨rfl, hh⟩
    rw [innerOf_addMapping_self, alookup_setEntry_ne _ _ _ _ ho]
  · rw [innerOf_addMapping_ne _ _ _ _ _ ht]

/-- C4: the claim that a persistence failure inside AddMapping is surfaced
to the caller is false: AddMapping discards the Save result, so with a
failing persistence substrate the caller receives exactly the same value as
with a succeeding one, even though Save itself reports the failure. -/
theorem c4_counterexample :
    IDMapping.save (fun _ => some "disk full") ((NewIDMapping "dir").addMapping "user" "o1" "n1")
      = some "disk full" ∧
    IDMapping.addMappingGo (fun _ => some "disk full") (NewIDMapping "dir") "user" "o1" "n1"
      = IDMapping.addMappingGo (fun _ => none) (NewIDMapping "dir") "user" "o1" "n1" := by
  exact ⟨rfl, rfl⟩

/-- C4 amended: AddMapping inserts or overwrites the in-memory entry,
immediately hands exactly the full new snapshot to Save, and leaves every
other entry unchanged; but the Save outcome is silently discarded —
the caller-visible result is identical for any two persistence substrates. -/
theorem c4_add_mapping (persist persist₂ : Mappings → Option String) (m : IDMapping)
    (t o n t₂ o₂ : String) (h : ¬(t₂ = t ∧ o₂ = o)) :
    IDMapping.addMappingGo persist m t o n
      = (m.addMapping t o n, [(m.addMapping t o n).mappings]) ∧
    (m.addMapping t o n).getNewID t o = some n ∧
    (m.addMapping t o n).getNewID t₂ o₂ = m.getNewID t₂ o₂ ∧
    IDMapping.addMappingGo persist m t o n = IDMapping.addMappingGo persist₂ m t o n := by
  exact ⟨rfl, getNewID_addMapping_self m t o n, getNewID_addMapping_other m t o n t₂ o₂ h, rfl⟩

/-- Witness for c4_add_mapping at concrete input. -/
theorem c4_add_mapping_witness :
    (¬(("user" : String) = "user" ∧ ("other" : String) = "o1")) ∧
    ((NewIDMapping "d").addMapping "user" "o1" "n1").getNewID "user" "o1" = some "n1" := by
  refine ⟨by decide, ?_⟩
  exact (c4_add_mapping (fun _ => none) (fun _ => none) (NewIDMapping "d")
    "user" "o1" "n1" "user" "other" (by decide)).2.1

/-- C5: the half of the claim stating that a malformed mapping file aborts
the restore is false: with content the parser rejects, Load reports an
error, yet PerformRestore proceeds into the passes with the fresh mapping
instead of aborting. -/
theorem c5_counterexample :
    (IDMapping.loadGo (fun _ => none) (some "not-json") (NewIDMapping "in")).2
      = some "error parsing ID mapping file" ∧
    performRestoreLoadGo (fun _ => none) "in" (some "not-json")
      = .proceedWith (NewIDMapping "in") := by
  exact ⟨rfl, rfl⟩

/-- C5 amended: loading a missing mapping file yields an empty mapping and
no error; malformed content makes Load return an error, but PerformRestore
logs and continues with the freshly constructed mapping rather than
aborting. -/
theorem c5_load_behavior (parse : String → Option Mappings) (m : IDMapping)
    (inputDir data : String) (h : parse data = none) :
    IDMapping.loadGo parse none m = ({ m with mappings := [] }, none) ∧
    IDMapping.loadGo parse (some data) m = (m, some "error parsing ID mapping file") ∧
    performRestoreLoadGo parse inputDir (some data) = .proceedWith (NewIDMapping inputDir) := by
  refine ⟨rfl, ?_, ?_⟩ <;> simp [IDMapping.loadGo, performRestoreLoadGo, h]

/-- Witness for c5_load_behavior at concrete input. -/
theorem c5_load_behavior_witness :
    ((fun (_ : String) => (none : Option Mappings)) "garbage" = none) ∧
    performRestoreLoadGo (fun _ => none) "in2" (some "garbage")
      = .proceedWith (NewIDMapping "in2") := by
  exact ⟨rfl, (c5_load_behavior (fun _ => none) (NewIDMapping "in2") "in2" "garbage" rfl).2.2⟩

/-- C3: the claim that every dependent descriptor's sourceType names an
existing independent descriptor fails on the shipped catalog: the
policy/listRules descriptor has sourceType "policy", which names no
first-pass descriptor (it is itself the name of a dependent descriptor),
and authorizationServerRules has sourceType "authorizationServerPolicy",
which names no descriptor at all. -/
theorem c3_counterexample :
    ({ Name := "policy", ListCommand := "listRules", GetCommand := "", RequiresIDs := true,
       SourceIDDir := "policy", IsSingleton := false } : BackupConfigResource)
        ∈ GetBackupConfig.SecondPassResources ∧
    firstPassNames.contains "policy" = false ∧
    secondPassNames.contains "policy" = true ∧
    ({ Name := "authorizationServerRules", ListCommand := "listAuthorizationServerPolicyRules",
       GetCommand := "", RequiresIDs := true,
       SourceIDDir := "authorizationServerPolicy", IsSingleton := false } : BackupConfigResource)
        ∈ GetBackupConfig.SecondPassResources ∧
    firstPassNames.contains "authorizationServerPolicy" = false := by decide

/-- C3 amended: a dependent descriptor's sourceType names an independent
descriptor exactly when that sourceType is neither "policy" nor
"authorizationServerPolicy"; those two dependent descriptors are orphaned
(and the code contains no catalog validation at all). -/
theorem c3_catalog_sourcetypes :
    (GetBackupConfig.SecondPassResources.all (fun d =>
      firstPassNames.contains d.SourceIDDir
        == !(d.SourceIDDir == "policy" || d.SourceIDDir == "authorizationServerPolicy"))) = true := by
  decide

/-- C10: the claim that backup's parameter flag (from the descriptor's Name)
equals restore's parameter flag (from the descriptor's SourceIDDir) fails for
the authorizationServerRules descriptor of the shipped catalog: backup uses
--policyId while restore computes the default flag --id for its SourceIDDir
"authorizationServerPolicy", which is absent from the flag table. -/
theorem c10_counterexample :
    ({ Name := "authorizationServerRules", ListCommand := "listAuthorizationServerPolicyRules",
       GetCommand := "", RequiresIDs := true,
       SourceIDDir := "authorizationServerPolicy", IsSingleton := false } : BackupConfigResource)
        ∈ GetBackupConfig.SecondPassResources ∧
    getParameterFlagForResource "authorizationServerRules" = "policyId" ∧
    getParameterFlagForResource "authorizationServerPolicy" = "id" ∧
    ("policyId" : String) ≠ "id" := by decide

/-- C10 amended: for every dependent descriptor of the shipped catalog other
than authorizationServerRules, the parameter flag computed by backup from the
descriptor's Name equals the flag computed by restore's generic second pass
from the descriptor's SourceIDDir. -/
theorem c10_flag_agreement :
    (GetBackupConfig.SecondPassResources.all (fun d =>
      d.Name == "authorizationServerRules" ||
      getParameterFlagForResource d.Name == getParameterFlagForResource d.SourceIDDir)) = true := by
  decide

/-- C8: the claim that backup runs the singleton pass first is false: the
trace of PerformBackup starts with the first-pass list call for "user", and
the whole trace differs from the singleton-first ordering the claim states. -/
theorem c8_counterexample :
    (performBackupCalls {} ⟨[]⟩ "out").head? = some ["user", "lists", "--batch-backup", "--backup-dir", "out"] ∧
    (singletonBackupCalls {} GetBackupConfig "out").head? = some ["orgSetting", "gets", "--backup-dir", "out"] ∧
    performBackupCalls {} ⟨[]⟩ "out" ≠
      singletonBackupCalls {} GetBackupConfig "out" ++
      firstPassBackupCalls {} GetBackupConfig "out" ++
      backupSecondPassCalls {} ⟨[]⟩ GetBackupConfig "out" := by decide

/-- C8 amended: every backup run issues, in order, one list call per
independent descriptor (first pass), then one get call per singleton
descriptor, then the second-pass calls over dependent descriptors. -/
theorem c8_pass_order (cfg : Config) (fs : FSys) (outputDir : String) :
    performBackupCalls cfg fs outputDir =
      GetBackupConfig.FirstPassResources.map (fun r =>
        PrepareOktaCliArgs cfg [r.Name, r.ListCommand, "--batch-backup", "--backup-dir", outputDir]) ++
      GetBackupConfig.SingletonResources.map (fun r =>
        PrepareOktaCliArgs cfg [r.Name, r.GetCommand, "--backup-dir", outputDir]) ++
      backupSecondPassCalls cfg fs GetBackupConfig outputDir := by
  simp [performBackupCalls, firstPassBackupCalls, singletonBackupCalls, foldl_append_one]

theorem flatMap_congr_fun {α β : Type} (l : List α) (f g : α → List β)
    (h : ∀ a ∈ l, f a = g a) : l.flatMap f = l.flatMap g := by
  induction l with
  | nil => rfl
  | cons x xs ih =>
    simp only [List.flatMap_cons, h x (by simp)]
    rw [ih (fun a ha => h a (by simp [ha]))]

/-- C2: in the generic second pass, a processed source-identifier
subdirectory whose old identifier has no mapping entry under the
descriptor's source type is skipped entirely — it contributes no create
call — and a warning naming the source type and old identifier is logged. -/
theorem c2_unmapped_source_skips (cfg : Config) (fs : FSys) (m : IDMapping)
    (r : BackupConfigResource) (subdirs : List DirEntry) (e : DirEntry)
    (hcustom : customRestorerNames.contains r.Name = false)
    (hdir : fs.readDir (strToLower r.Name ++ "/" ++ r.ListCommand) = some subdirs)
    (he : e ∈ subdirs) (hisdir : e.isDir = true)
    (hmap : m.getNewID r.SourceIDDir e.name = none) :
    restoreSecondPassSubdirCalls cfg fs m r (getParameterFlagForResource r.SourceIDDir)
        (strToLower r.Name ++ "/" ++ r.ListCommand) e = [] ∧
    restoreSecondPassSubdirWarnings cfg fs m r (getParameterFlagForResource r.SourceIDDir)
        (strToLower r.Name ++ "/" ++ r.ListCommand) e
      = [RWarning.unmappedSource r.SourceIDDir e.name] ∧
    RWarning.unmappedSource r.SourceIDDir e.name
      ∈ restoreSecondPassResourceWarnings cfg fs m r := by
  refine ⟨?_, ?_, ?_⟩
  · simp [restoreSecondPassSubdirCalls, hisdir, hmap]
  · simp [restoreSecondPassSubdirWarnings, hisdir, hmap]
  · unfold restoreSecondPassResourceWarnings
    simp only [hcustom, Bool.false_eq_true, if_false, hdir]
    exact List.mem_flatMap.mpr
      ⟨e, he, by simp [restoreSecondPassSubdirWarnings, hisdir, hmap]⟩

/-- Witness for c2_unmapped_source_skips at concrete input. -/
theorem c2_unmapped_source_skips_witness :
    customRestorerNames.contains "policy" = false ∧
    RWarning.unmappedSource "policy" "p1"
      ∈ restoreSecondPassResourceWarnings {} ⟨[("policy/listRules", [⟨"p1", true, none⟩])]⟩
          (NewIDMapping "in")
          { Name := "policy", ListCommand := "listRules", GetCommand := "",
            RequiresIDs := true, SourceIDDir := "policy", IsSingleton := false } := by
  refine ⟨by decide, ?_⟩
  exact (c2_unmapped_source_skips {} ⟨[("policy/listRules", [⟨"p1", true, none⟩])]⟩
    (NewIDMapping "in")
    { Name := "policy", ListCommand := "listRules", GetCommand := "",
      RequiresIDs := true, SourceIDDir := "policy", IsSingleton := false }
    [⟨"p1", true, none⟩] ⟨"p1", true, none⟩
    (by decide) (by decide) (by decide) (by decide) (by decide)).2.2

/-- C6: a well-formed application-group assignment record produces an
association call exactly when both identifier translations succeed; if
either endpoint lookup fails, the record yields zero association calls and
a warning. -/
theorem c6_association_resolution (m : IDMapping) (runs : List String → Bool) (cfg : Config)
    (f : DirEntry) (obj : List (String × String)) (oldAppID oldGroupID : String)
    (hnd : f.isDir = false) (hjson : strEndsWith f.name ".json" = true)
    (hc : f.content = some obj)
    (happ : alookup obj "appId" = some oldAppID)
    (hid : alookup obj "id" = some oldGroupID) :
    ((agProcessFile m runs cfg f).1 ≠ []
       ↔ (m.getNewID "application" oldAppID).isSome = true
          ∧ (m.getNewID "group" oldGroupID).isSome = true) ∧
    ((m.getNewID "application" oldAppID = none ∨ m.getNewID "group" oldGroupID = none) →
       (agProcessFile m runs cfg f).1 = [] ∧ (agProcessFile m runs cfg f).2 ≠ []) := by
  cases hA : m.getNewID "application" oldAppID with
  | none =>
    refine ⟨?_, ?_⟩
    · simp [agProcessFile, hnd, hjson, hc, happ, hid, hA]
    · intro _
      simp [agProcessFile, hnd, hjson, hc, happ, hid, hA]
  | some nA =>
    cases hG : m.getNewID "group" oldGroupID with
    | none =>
      refine ⟨?_, ?_⟩
      · simp [agProcessFile, hnd, hjson, hc, happ, hid, hA, hG]
      · intro _
        simp [agProcessFile, hnd, hjson, hc, happ, hid, hA, hG]
    | some nG =>
      refine ⟨?_, ?_⟩
      · constructor
        · intro _
          exact ⟨rfl, rfl⟩
        · intro _
          simp only [agProcessFile, hnd, hjson, hc, happ, hid, hA, hG, Bool.not_false,
            Bool.true_and, if_true]
          split_ifs <;> simp
      · rintro (h | h) <;> simp_all

/-- Witness for c6_association_resolution at concrete input. -/
theorem c6_association_resolution_witness :
    ((agProcessFile ⟨[("application", [("a1", "na")]), ("group", [("g1", "ng")])], ""⟩
        (fun _ => true) {} ⟨"as1.json", false, some [("appId", "a1"), ("id", "g1")]⟩).1 ≠ []
      ↔ ((⟨[("application", [("a1", "na")]), ("group", [("g1", "ng")])], ""⟩ : IDMapping).getNewID
            "application" "a1").isSome = true
        ∧ ((⟨[("application", [("a1", "na")]), ("group", [("g1", "ng")])], ""⟩ : IDMapping).getNewID
            "group" "g1").isSome = true) ∧
    (((⟨[("application", [("a1", "na")]), ("group", [("g1", "ng")])], ""⟩ : IDMapping).getNewID
          "application" "a1" = none
        ∨ (⟨[("application", [("a1", "na")]), ("group", [("g1", "ng")])], ""⟩ : IDMapping).getNewID
          "group" "g1" = none) →
      (agProcessFile ⟨[("application", [("a1", "na")]), ("group", [("g1", "ng")])], ""⟩
          (fun _ => true) {} ⟨"as1.json", false, some [("appId", "a1"), ("id", "g1")]⟩).1 = []
        ∧ (agProcessFile ⟨[("application", [("a1", "na")]), ("group", [("g1", "ng")])], ""⟩
          (fun _ => true) {} ⟨"as1.json", false, some [("appId", "a1"), ("id", "g1")]⟩).2 ≠ []) := by
  exact c6_association_resolution _ _ {} _ [("appId", "a1"), ("id", "g1")] "a1" "g1"
    (by decide) (by decide) (by decide) (by decide) (by decide)

theorem ugProcessFile_calls_le_one (m : IDMapping) (runs : List String → Bool) (cfg : Config)
    (newUserID userPath : String) (f : DirEntry) :
    (ugProcessFile m runs cfg newUserID userPath f).1.length ≤ 1 := by
  unfold ugProcessFile
  repeat' split
  all_goals try dsimp only
  all_goals first | (split <;> simp) | simp

theorem raProcessFile_calls_le_one (m : IDMapping) (runs : List String → Bool) (cfg : Config)
    (newUserID userPath : String) (f : DirEntry) :
    (raProcessFile m runs cfg newUserID userPath f).1.length ≤ 1 := by
  unfold raProcessFile
  repeat' split
  all_goals try dsimp only
  all_goals first | (split <;> simp) | simp

/-- C7: the claim that every registered handler retries a failed record
with a degraded call form is false: with a run oracle failing every call,
the user-groups handler issues exactly one membership call for a record and
merely logs the failure — no second call — and likewise the role-assignment
handler issues exactly one call. -/
theorem c7_counterexample :
    ugProcessFile ⟨[("group", [("g1", "ng1")])], ""⟩ (fun _ => false) {} "nu" "user/listGroups/u1"
        ⟨"grp.json", false, some [("id", "g1")]⟩
      = ([["group", "addUserToGroup", "--groupId", "ng1", "--userId", "nu"]],
         [RWarning.runFailed ["group", "addUserToGroup", "--groupId", "ng1", "--userId", "nu"]]) ∧
    raProcessFile ⟨[], ""⟩ (fun _ => false) {} "nu" "roleassignment/listAssignedRolesForUser/u1"
        ⟨"r1.json", false, some [("type", "SUPER_ADMIN")]⟩
      = ([["role", "assignRoleToUser", "--userId", "nu", "--type", "SUPER_ADMIN"]],
         [RWarning.runFailed ["role", "assignRoleToUser", "--userId", "nu", "--type", "SUPER_ADMIN"]]) := by
  exact ⟨by decide, by decide⟩

/-- C7 amended: only the applicationGroups handler retries with a degraded
call form (the data variant) after a primary failure; the user-groups and
role-assignment handlers issue at most one call per record and only log a
failure. All three treat the failure as non-fatal. -/
theorem c7_retry_behavior (m : IDMapping) (runs : List String → Bool) (cfg : Config)
    (newUserID userPath : String) (f g : DirEntry) (obj : List (String × String))
    (oldAppID oldGroupID newAppID newGroupID : String)
    (hnd : g.isDir = false) (hjson : strEndsWith g.name ".json" = true)
    (hc : g.content = some obj)
    (happ : alookup obj "appId" = some oldAppID) (hid : alookup obj "id" = some oldGroupID)
    (hA : m.getNewID "application" oldAppID = some newAppID)
    (hG : m.getNewID "group" oldGroupID = some newGroupID)
    (hfail : runs (PrepareOktaCliArgs cfg ["applicationGroups", "assignGroupToApplication",
      "--appId", newAppID, "--groupId", newGroupID,
      "--restore-from", "applicationgroups/listApplicationGroupAssignments/" ++ g.name]) = false) :
    (ugProcessFile m runs cfg newUserID userPath f).1.length ≤ 1 ∧
    (raProcessFile m runs cfg newUserID userPath f).1.length ≤ 1 ∧
    (agProcessFile m runs cfg g).1
      = [PrepareOktaCliArgs cfg ["applicationGroups", "assignGroupToApplication",
           "--appId", newAppID, "--groupId", newGroupID,
           "--restore-from", "applicationgroups/listApplicationGroupAssignments/" ++ g.name],
         PrepareOktaCliArgs cfg ["applicationGroups", "assignGroupToApplication",
           "--appId", newAppID, "--groupId", newGroupID, "--data", "\x7b\x7d"]] := by
  refine ⟨ugProcessFile_calls_le_one m runs cfg newUserID userPath f,
    raProcessFile_calls_le_one m runs cfg newUserID userPath f, ?_⟩
  simp only [agProcessFile, hnd, hjson, hc, happ, hid, hA, hG, hfail, Bool.not_false,
    Bool.true_and, if_true, Bool.false_eq_true, if_false]
  split_ifs <;> simp

/-- Witness for c7_retry_behavior at concrete input. -/
theorem c7_retry_behavior_witness :
    (agProcessFile ⟨[("application", [("a1", "na")]), ("group", [("g1", "ng")])], ""⟩
        (fun _ => false) {} ⟨"as1.json", false, some [("appId", "a1"), ("id", "g1")]⟩).1
      = [["applicationGroups", "assignGroupToApplication", "--appId", "na", "--groupId", "ng",
          "--restore-from", "applicationgroups/listApplicationGroupAssignments/" ++ "as1.json"],
         ["applicationGroups", "assignGroupToApplication", "--appId", "na", "--groupId", "ng",
          "--data", "\x7b\x7d"]] := by
  exact (c7_retry_behavior ⟨[("application", [("a1", "na")]), ("group", [("g1", "ng")])], ""⟩
    (fun _ => false) {} "nu" "p" ⟨"x", false, none⟩
    ⟨"as1.json", false, some [("appId", "a1"), ("id", "g1")]⟩
    [("appId", "a1"), ("id", "g1")] "a1" "g1" "na" "ng"
    (by decide) (by decide) (by decide) (by decide) (by decide) (by decide) (by decide)
    (by decide)).2.2

/-- C9: custom-restorer dispatch keys on the descriptor Name alone: the
generic second pass skips every dependent descriptor named user (no call
and no warning is produced for it), while the user handler's output depends
only on the user/listGroups tree — so the catalog's user listAppLinks,
listGrants, and listIdentityProviders descriptors are restored by neither
the generic path nor the handler. -/
theorem c9_custom_dispatch (cfg : Config) (fs fs₂ : FSys) (m : IDMapping)
    (runs : List String → Bool)
    (hroot : fs.readDir "user/listGroups" = fs₂.readDir "user/listGroups")
    (hsub : ∀ u : String,
      fs.readDir ("user/listGroups/" ++ u) = fs₂.readDir ("user/listGroups/" ++ u)) :
    (∀ d ∈ GetBackupConfig.SecondPassResources, d.Name = "user" →
        restoreSecondPassResourceCalls cfg fs m d = []
          ∧ restoreSecondPassResourceWarnings cfg fs m d = []) ∧
    ({ Name := "user", ListCommand := "listAppLinks", GetCommand := "", RequiresIDs := true,
       SourceIDDir := "user", IsSingleton := false } : BackupConfigResource)
        ∈ GetBackupConfig.SecondPassResources ∧
    ({ Name := "user", ListCommand := "listGrants", GetCommand := "", RequiresIDs := true,
       SourceIDDir := "user", IsSingleton := false } : BackupConfigResource)
        ∈ GetBackupConfig.SecondPassResources ∧
    ({ Name := "user", ListCommand := "listIdentityProviders", GetCommand := "",
       RequiresIDs := true, SourceIDDir := "user", IsSingleton := false } : BackupConfigResource)
        ∈ GetBackupConfig.SecondPassResources ∧
    userGroupsRestorerCalls cfg fs m runs = userGroupsRestorerCalls cfg fs₂ m runs := by
  refine ⟨?_, by decide, by decide, by decide, ?_⟩
  · intro d _ hdn
    have hcon : customRestorerNames.contains d.Name = true := by rw [hdn]; decide
    refine ⟨?_, ?_⟩
    · unfold restoreSecondPassResourceCalls
      rw [hcon]
      simp
    · unfold restoreSecondPassResourceWarnings
      rw [hcon]
      simp
  · unfold userGroupsRestorerCalls
    rw [← hroot]
    cases fs.readDir "user/listGroups" with
    | none => rfl
    | some uds =>
      exact flatMap_congr_fun uds _ _ (fun ud _ => by rw [hsub ud.name])

/-- Witness for c9_custom_dispatch at concrete input. -/
theorem c9_custom_dispatch_witness :
    (∀ d ∈ GetBackupConfig.SecondPassResources, d.Name = "user" →
        restoreSecondPassResourceCalls {} ⟨[]⟩ (NewIDMapping "in") d = []
          ∧ restoreSecondPassResourceWarnings {} ⟨[]⟩ (NewIDMapping "in") d = []) ∧
    userGroupsRestorerCalls {} ⟨[]⟩ (NewIDMapping "in") (fun _ => true)
      = userGroupsRestorerCalls {} ⟨[]⟩ (NewIDMapping "in") (fun _ => true) := by
  have h := c9_custom_dispatch {} ⟨[]⟩ ⟨[]⟩ (NewIDMapping "in") (fun _ => true)
    rfl (fun _ => rfl)
  exact ⟨h.1, h.2.2.2.2⟩

theorem setEntry_append_of_notmem {α : Type} (l : List (String × α)) (k : String) (v : α)
    (h : k ∉ l.map Prod.fst) : setEntry l k v = l ++ [(k, v)] := by
  induction l with
  | nil => rfl
  | cons p rest ih =>
    obtain ⟨k₂, v₂⟩ := p
    have hne : k₂ ≠ k := by
      intro hh
      exact h (by simp [hh])
    simp only [setEntry, hne, if_false]
    rw [ih (fun hm => h (by simp [hm]))]
    simp

theorem foldl_setEntry_disjoint (ps l : List (String × String))
    (hnd : (ps.map Prod.fst).Nodup)
    (hdis : ∀ k ∈ l.map Prod.fst, k ∉ ps.map Prod.fst) :
    ps.foldl (fun acc p => setEntry acc p.1 p.2) l = l ++ ps := by
  induction ps generalizing l with
  | nil => simp
  | cons p rest ih =>
    obtain ⟨k, v⟩ := p
    have hk : k ∉ l.map Prod.fst := fun hm => hdis k hm (by simp)
    have hnd₂ : (rest.map Prod.fst).Nodup := (by simpa using hnd : _ ∧ _).2
    have hknotrest : k ∉ rest.map Prod.fst := (by simpa using hnd : _ ∧ _).1
    have hdis₂ : ∀ k₂ ∈ (l ++ [(k, v)]).map Prod.fst, k₂ ∉ rest.map Prod.fst := by
      intro k₂ hm
      rcases (by simpa using hm : k₂ ∈ l.map Prod.fst ∨ k₂ = k) with hm₂ | hm₂
      · intro hr
        exact hdis k₂ hm₂ (by simp [hr])
      · subst hm₂
        exact hknotrest
    rw [List.foldl_cons, setEntry_append_of_notmem l k v hk, ih (l ++ [(k, v)]) hnd₂ hdis₂]
    simp

theorem foldl_firstPassStep_innerOf (create : String → String → Option String)
    (rname resourceDir : String) (files : List DirEntry) (m : IDMapping) :
    (files.foldl (firstPassStep create rname resourceDir) m).innerOf rname
      = (firstPassPairs create rname resourceDir files).foldl
          (fun acc p => setEntry acc p.1 p.2) (m.innerOf rname) := by
  induction files generalizing m with
  | nil => simp [firstPassPairs]
  | cons e rest ih =>
    rw [List.foldl_cons]
    by_cases hcond : (!e.isDir && strEndsWith e.name ".json") = true
    · cases hcr : create rname (resourceDir ++ "/" ++ e.name) with
      | none =>
        have hstep : firstPassStep create rname resourceDir m e = m := by
          unfold firstPassStep
          rw [if_pos hcond, hcr]
        have hpairs : firstPassPairs create rname resourceDir (e :: rest)
            = firstPassPairs create rname resourceDir rest := by
          unfold firstPassPairs
          rw [List.filterMap_cons, if_pos hcond, hcr]
          simp
        rw [hstep, hpairs]
        exact ih m
      | some n =>
        have hstep : firstPassStep create rname resourceDir m e
            = m.addMapping rname (trimSuffix e.name ".json") n := by
          unfold firstPassStep
          rw [if_pos hcond, hcr]
        have hpairs : firstPassPairs create rname resourceDir (e :: rest)
            = (trimSuffix e.name ".json", n) :: firstPassPairs create rname resourceDir rest := by
          unfold firstPassPairs
          rw [List.filterMap_cons, if_pos hcond, hcr]
          simp [firstPassPairs]
        rw [hstep, hpairs, List.foldl_cons, ih, innerOf_addMapping_self]
    · have hstep : firstPassStep create rname resourceDir m e = m := by
        unfold firstPassStep
        rw [if_neg hcond]
      have hpairs : firstPassPairs create rname resourceDir (e :: rest)
          = firstPassPairs create rname resourceDir rest := by
        unfold firstPassPairs
        rw [List.filterMap_cons, if_neg hcond]
      rw [hstep, hpairs]
      exact ih m

theorem firstPassPairs_keys (create : String → String → Option String)
    (rname resourceDir : String) (files : List DirEntry)
    (hfiles : ∀ e ∈ files, e.isDir = false ∧ strEndsWith e.name ".json" = true)
    (hcreate : ∀ t p, (create t p).isSome = true) :
    (firstPassPairs create rname resourceDir files).map Prod.fst
      = files.map (fun e => trimSuffix e.name ".json") := by
  induction files with
  | nil => rfl
  | cons e rest ih =>
    obtain ⟨hd, hj⟩ := hfiles e (by simp)
    have hcond : (!e.isDir && strEndsWith e.name ".json") = true := by rw [hd, hj]; rfl
    obtain ⟨n, hn⟩ := Option.isSome_iff_exists.mp (hcreate rname (resourceDir ++ "/" ++ e.name))
    unfold firstPassPairs
    rw [List.filterMap_cons, if_pos hcond, hn]
    simp only [Option.map_some', List.map_cons]
    exact congrArg (fun l => trimSuffix e.name ".json" :: l)
      (ih (fun e₂ he₂ => hfiles e₂ (by simp [he₂])))

theorem firstPassPairs_mem (create : String → String → Option String)
    (rname resourceDir : String) (files : List DirEntry) (pr : String × String)
    (h : pr ∈ firstPassPairs create rname resourceDir files) :
    ∃ p, create rname p = some pr.2 := by
  unfold firstPassPairs at h
  obtain ⟨e, _, heq⟩ := List.mem_filterMap.mp h
  by_cases hcond : (!e.isDir && strEndsWith e.name ".json") = true
  · rw [if_pos hcond] at heq
    obtain ⟨n, hn, hpr⟩ := Option.map_eq_some'.mp heq
    refine ⟨resourceDir ++ "/" ++ e.name, ?_⟩
    rw [← hpr]
    exact hn
  · rw [if_neg hcond] at heq
    cases heq

theorem alookup_isSome_of_mem_keys {α : Type} (l : List (String × α)) (k : String)
    (h : k ∈ l.map Prod.fst) : (alookup l k).isSome = true := by
  induction l with
  | nil => simp at h
  | cons p rest ih =>
    obtain ⟨k₂, v⟩ := p
    by_cases hk : k₂ = k
    · simp [alookup, hk]
    · simp only [alookup, hk, if_false]
      apply ih
      rcases (by simpa using h : k = k₂ ∨ k ∈ rest.map Prod.fst) with h₂ | h₂
      · exact absurd h₂.symm hk
      · exact h₂

theorem mem_of_alookup_eq_some {α : Type} (l : List (String × α)) (k : String) (v : α)
    (h : alookup l k = some v) : (k, v) ∈ l := by
  induction l with
  | nil => simp [alookup] at h
  | cons p rest ih =>
    obtain ⟨k₂, v₂⟩ := p
    by_cases hk : k₂ = k
    · rw [alookup, if_pos hk] at h
      obtain rfl : v₂ = v := Option.some.inj h
      subst hk
      simp
    · rw [alookup, if_neg hk] at h
      exact List.mem_cons_of_mem _ (ih h)

theorem filterMap_ite_eq_filter_map {α β : Type} (l : List α) (p : α → Bool) (g : α → β) :
    (l.filterMap (fun x => if p x then some (g x) else none)) = (l.filter p).map g := by
  induction l with
  | nil => rfl
  | cons x xs ih =>
    by_cases h : p x <;> simp [List.filterMap_cons, List.filter_cons, h, ih]

theorem subdirCalls_eq_map (cfg : Config) (fs : FSys) (m : IDMapping)
    (r : BackupConfigResource) (param resourceDir : String) (e : DirEntry) (n : String)
    (files : List DirEntry)
    (hisdir : e.isDir = true)
    (hn : m.getNewID r.SourceIDDir e.name = some n)
    (hfiles : fs.readDir (resourceDir ++ "/" ++ e.name) = some files)
    (hnotassign : isAssignmentResource r.Name r.ListCommand = false) :
    restoreSecondPassSubdirCalls cfg fs m r param resourceDir e
      = (files.filter (fun f => !f.isDir && strEndsWith f.name ".json")).map
          (fun f => PrepareOktaCliArgs cfg [r.Name, "create", "--" ++ param, n,
            "--restore-from", resourceDir ++ "/" ++ e.name ++ "/" ++ f.name]) := by
  have hcmd : ∀ fp, secondPassCmdFor cfg r.Name r.ListCommand param n fp
      = some (PrepareOktaCliArgs cfg [r.Name, "create", "--" ++ param, n,
          "--restore-from", fp]) := by
    intro fp
    unfold secondPassCmdFor
    rw [hnotassign]
    simp
  unfold restoreSecondPassSubdirCalls
  rw [if_pos hisdir]
  simp only [hn, hfiles, hcmd]
  exact filterMap_ite_eq_filter_map files _ _

theorem subdirCalls_length (cfg : Config) (fs : FSys) (m : IDMapping)
    (r : BackupConfigResource) (param resourceDir : String) (e : DirEntry) (n : String)
    (hisdir : e.isDir = true)
    (hn : m.getNewID r.SourceIDDir e.name = some n)
    (hnotassign : isAssignmentResource r.Name r.ListCommand = false) :
    (restoreSecondPassSubdirCalls cfg fs m r param resourceDir e).length
      = subdirJsonCount fs resourceDir e := by
  cases hf : fs.readDir (resourceDir ++ "/" ++ e.name) with
  | none =>
    unfold restoreSecondPassSubdirCalls subdirJsonCount
    rw [if_pos hisdir]
    simp only [hn, hf]
    rfl
  | some files =>
    rw [subdirCalls_eq_map cfg fs m r param resourceDir e n files hisdir hn hf hnotassign]
    unfold subdirJsonCount
    rw [hf]
    simp

theorem subdirCalls_mem (cfg : Config) (fs : FSys) (m : IDMapping)
    (r : BackupConfigResource) (param resourceDir : String) (e : DirEntry) (c : List String)
    (hnotassign : isAssignmentResource r.Name r.ListCommand = false)
    (hc : c ∈ restoreSecondPassSubdirCalls cfg fs m r param resourceDir e) :
    ∃ n fp, m.getNewID r.SourceIDDir e.name = some n ∧
      c = PrepareOktaCliArgs cfg [r.Name, "create", "--" ++ param, n, "--restore-from", fp] := by
  unfold restoreSecondPassSubdirCalls at hc
  by_cases hisdir : e.isDir = true
  · rw [if_pos hisdir] at hc
    cases hn : m.getNewID r.SourceIDDir e.name with
    | none =>
      simp only [hn] at hc
      simp at hc
    | some n =>
      simp only [hn] at hc
      cases hf : fs.readDir (resourceDir ++ "/" ++ e.name) with
      | none =>
        simp only [hf] at hc
        simp at hc
      | some files =>
        simp only [hf] at hc
        obtain ⟨f, _, heq⟩ := List.mem_filterMap.mp hc
        refine ⟨n, resourceDir ++ "/" ++ e.name ++ "/" ++ f.name, rfl, ?_⟩
        by_cases hcond : (!f.isDir && strEndsWith f.name ".json") = true
        · rw [if_pos hcond] at heq
          unfold secondPassCmdFor at heq
          rw [hnotassign] at heq
          simp only [Bool.false_eq_true, if_false, Option.some.injEq] at heq
          exact heq.symm
        · rw [if_neg hcond] at heq
          cases heq
  · rw [if_neg hisdir] at hc
    simp at hc

/-- C1: round trip. With a create oracle that succeeds on every call and
whose new identifiers avoid every old identifier (the fresh-identifier
backend fake), restoring a backup of N independent records (one .json file
per record, distinct identifiers) and M dependent records into an empty
mapping store: the first pass records exactly one mapping entry per
persisted file — N entries, keyed by the old identifiers recovered from the
filenames — and the generic second pass issues exactly M create calls, each
parameterized by the translated new source identifier, never by an original
old identifier. -/
theorem c1_round_trip (cfg : Config) (create : String → String → Option String) (fs : FSys)
    (r₁ r₂ : BackupConfigResource) (files subs : List DirEntry)
    (hlc : (r₁.ListCommand == "") = false)
    (hdir₁ : fs.readDir (strToLower r₁.Name ++ "/lists") = some files)
    (hfiles : ∀ e ∈ files, e.isDir = false ∧ strEndsWith e.name ".json" = true)
    (hnodup : (files.map (fun e => trimSuffix e.name ".json")).Nodup)
    (hcreate : ∀ t p, (create t p).isSome = true)
    (hfresh : ∀ t p n, create t p = some n → n ∉ files.map (fun e => trimSuffix e.name ".json"))
    (hcustom : customRestorerNames.contains r₂.Name = false)
    (hsrc : r₂.SourceIDDir = r₁.Name)
    (hnotassign : isAssignmentResource r₂.Name r₂.ListCommand = false)
    (hdir₂ : fs.readDir (strToLower r₂.Name ++ "/" ++ r₂.ListCommand) = some subs)
    (hsubs : ∀ e ∈ subs, e.isDir = true
        ∧ e.name ∈ files.map (fun e₂ => trimSuffix e₂.name ".json")) :
    ((restoreFirstPassResources create fs (NewIDMapping "in") (pairCatalog r₁ r₂)).innerOf
        r₁.Name).map Prod.fst = files.map (fun e => trimSuffix e.name ".json") ∧
    ((restoreFirstPassResources create fs (NewIDMapping "in") (pairCatalog r₁ r₂)).innerOf
        r₁.Name).length = files.length ∧
    (restoreSecondPassCalls cfg fs
        (restoreFirstPassResources create fs (NewIDMapping "in") (pairCatalog r₁ r₂))
        (pairCatalog r₁ r₂)).length
      = (subs.map (subdirJsonCount fs (strToLower r₂.Name ++ "/" ++ r₂.ListCommand))).sum ∧
    ∀ c ∈ restoreSecondPassCalls cfg fs
        (restoreFirstPassResources create fs (NewIDMapping "in") (pairCatalog r₁ r₂))
        (pairCatalog r₁ r₂),
      ∃ old n fp, old ∈ files.map (fun e => trimSuffix e.name ".json")
        ∧ (restoreFirstPassResources create fs (NewIDMapping "in") (pairCatalog r₁ r₂)).getNewID
            r₂.SourceIDDir old = some n
        ∧ n ∉ files.map (fun e => trimSuffix e.name ".json")
        ∧ c = PrepareOktaCliArgs cfg [r₂.Name, "create",
            "--" ++ getParameterFlagForResource r₂.SourceIDDir, n, "--restore-from", fp] := by
  set m₂ := restoreFirstPassResources create fs (NewIDMapping "in") (pairCatalog r₁ r₂) with hm₂def
  set trims := files.map (fun e => trimSuffix e.name ".json") with htrims
  have hm₂ : m₂ = restoreFirstPassResource create fs (NewIDMapping "in") r₁ := rfl
  have hkeys := firstPassPairs_keys create r₁.Name (strToLower r₁.Name ++ "/lists") files
    hfiles hcreate
  have hinner : m₂.innerOf r₁.Name
      = firstPassPairs create r₁.Name (strToLower r₁.Name ++ "/lists") files := by
    rw [hm₂]
    unfold restoreFirstPassResource
    rw [if_neg (by simp [hlc])]
    simp only [hdir₁]
    rw [foldl_firstPassStep_innerOf]
    have hempty : (NewIDMapping "in").innerOf r₁.Name = [] := rfl
    rw [hempty, foldl_setEntry_disjoint _ _ (by rw [hkeys]; exact hnodup) (by intro k hk; simp at hk)]
    simp
  have hagoal : (m₂.innerOf r₁.Name).map Prod.fst = trims := by
    rw [hinner]
    exact hkeys
  have hlen : (m₂.innerOf r₁.Name).length = files.length := by
    have h2 := congrArg List.length hagoal
    rw [List.length_map] at h2
    rw [h2, htrims, List.length_map]
  have hcalls : restoreSecondPassCalls cfg fs m₂ (pairCatalog r₁ r₂)
      = restoreSecondPassResourceCalls cfg fs m₂ r₂ := by
    simp [restoreSecondPassCalls, pairCatalog]
  have hres : restoreSecondPassResourceCalls cfg fs m₂ r₂
      = subs.flatMap (restoreSecondPassSubdirCalls cfg fs m₂ r₂
          (getParameterFlagForResource r₂.SourceIDDir)
          (strToLower r₂.Name ++ "/" ++ r₂.ListCommand)) := by
    unfold restoreSecondPassResourceCalls
    rw [hcustom]
    simp only [Bool.false_eq_true, if_false, hdir₂]
  have hmap : ∀ e ∈ subs, ∃ n, m₂.getNewID r₂.SourceIDDir e.name = some n := by
    intro e he
    have hsome : (m₂.getNewID r₂.SourceIDDir e.name).isSome = true := by
      rw [hsrc, getNewID_eq_alookup_innerOf, hinner]
      apply alookup_isSome_of_mem_keys
      rw [hkeys]
      exact (hsubs e he).2
    exact Option.isSome_iff_exists.mp hsome
  refine ⟨hagoal, hlen, ?_, ?_⟩
  · rw [hcalls, hres, List.length_flatMap]
    congr 1
    apply List.map_congr_left
    intro e he
    obtain ⟨n, hn⟩ := hmap e he
    exact subdirCalls_length cfg fs m₂ r₂ _ _ e n (hsubs e he).1 hn hnotassign
  · intro c hc
    rw [hcalls, hres] at hc
    obtain ⟨e, he, hce⟩ := List.mem_flatMap.mp hc
    obtain ⟨n, fp, hn, hshape⟩ := subdirCalls_mem cfg fs m₂ r₂ _ _ e c hnotassign hce
    refine ⟨e.name, n, fp, (hsubs e he).2, hn, ?_, hshape⟩
    have hpair : (e.name, n)
        ∈ firstPassPairs create r₁.Name (strToLower r₁.Name ++ "/lists") files := by
      apply mem_of_alookup_eq_some
      rw [← hinner, ← getNewID_eq_alookup_innerOf, ← hsrc]
      exact hn
    obtain ⟨p, hp⟩ := firstPassPairs_mem create r₁.Name _ files (e.name, n) hpair
    exact hfresh r₁.Name p n hp

/-- Witness for c1_round_trip at concrete input: two independent group
records and three dependent userFactor records. -/
theorem c1_round_trip_witness :
    customRestorerNames.contains c1R2.Name = false ∧
    ((restoreFirstPassResources (fun _ _ => some "NEW") c1FS (NewIDMapping "in")
        (pairCatalog c1R1 c1R2)).innerOf c1R1.Name).map Prod.fst
      = c1Files.map (fun e => trimSuffix e.name ".json") ∧
    (restoreSecondPassCalls {} c1FS
        (restoreFirstPassResources (fun _ _ => some "NEW") c1FS (NewIDMapping "in")
          (pairCatalog c1R1 c1R2))
        (pairCatalog c1R1 c1R2)).length
      = ([⟨"g1", true, none⟩, ⟨"g2", true, none⟩].map
          (subdirJsonCount c1FS (strToLower c1R2.Name ++ "/" ++ c1R2.ListCommand))).sum := by
  have h := c1_round_trip {} (fun _ _ => some "NEW") c1FS c1R1 c1R2 c1Files
    [⟨"g1", true, none⟩, ⟨"g2", true, none⟩]
    (by decide) (by decide) (by decide) (by decide)
    (fun _ _ => rfl)
    (fun t p n hcr => by
      injection hcr with h₂
      subst h₂
      decide)
    (by decide) (by decide) (by decide) (by decide) (by decide)
  exact ⟨by decide, h.1, h.2.2.1⟩
